import Mathlib

/-!
Shallow embedding of `tune_transformer.py` (LogFormer fine-tuning script).

The script is orchestration glue: config parsing, seeding, data loading,
an optional checkpoint restore, a train/eval loop, and text-file reporting.
We embed each block as a pure Lean function over explicit state:

* losses and metric values are rationals (`ℚ`);
* the checkpoint and the parameter collection of the model are association
  lists `List (String × α)` (Python dicts with unique keys);
* fallible steps (`dict.pop`, the eval loop on an empty loader) return
  `Option`;
* file effects are reified as a list of `FileOp` records.
-/

/-! ### sklearn binary metrics (`f1_score`, `precision_recall_fscore_support`
with `average=binary`, positive label 1) -/

/-- True positives: label 1 predicted 1. -/
def countTP (yTrue yPred : List ℕ) : ℕ :=
  (yTrue.zip yPred).countP (fun z => z.1 == 1 && z.2 == 1)

/-- False positives: label not 1, predicted 1. -/
def countFP (yTrue yPred : List ℕ) : ℕ :=
  (yTrue.zip yPred).countP (fun z => !(z.1 == 1) && z.2 == 1)

/-- False negatives: label 1, predicted not 1. -/
def countFN (yTrue yPred : List ℕ) : ℕ :=
  (yTrue.zip yPred).countP (fun z => z.1 == 1 && !(z.2 == 1))

/-- Binary precision; sklearn returns 0 on a zero denominator, which matches
`ℚ` division by zero. -/
def precisionB (yTrue yPred : List ℕ) : ℚ :=
  (countTP yTrue yPred : ℚ) / ((countTP yTrue yPred : ℚ) + (countFP yTrue yPred : ℚ))

/-- Binary recall. -/
def recallB (yTrue yPred : List ℕ) : ℚ :=
  (countTP yTrue yPred : ℚ) / ((countTP yTrue yPred : ℚ) + (countFN yTrue yPred : ℚ))

/-- Binary F1 as the harmonic mean of precision and recall. -/
def f1B (yTrue yPred : List ℕ) : ℚ :=
  2 * precisionB yTrue yPred * recallB yTrue yPred /
    (precisionB yTrue yPred + recallB yTrue yPred)

/-- `precision_recall_fscore_support(..., average=binary)`: the triple
(precision, recall, f1). -/
def prfBinary (yTrue yPred : List ℕ) : ℚ × ℚ × ℚ :=
  (precisionB yTrue yPred, recallB yTrue yPred, f1B yTrue yPred)

/-- Helper for `np.argmax`: fold keeping the first index of the maximum. -/
def argmaxGo (bi : ℕ) (bv : ℚ) (i : ℕ) : List ℚ → ℕ
  | [] => bi
  | x :: xs => if bv < x then argmaxGo i x (i + 1) xs else argmaxGo bi bv (i + 1) xs

/-- `np.argmax` over one row: index of the first maximal entry (0 on empty). -/
def argmaxIdx : List ℚ → ℕ
  | [] => 0
  | x :: xs => argmaxGo 0 x 1 xs

/-! ### DataLoader batching: splitting a sequence into consecutive chunks -/

/-- Split a list into consecutive chunks of size `n` (last chunk may be
shorter), as a `DataLoader` with `shuffle=False` iterates a dataset. -/
def chunksOf (n : ℕ) : List α → List (List α)
  | [] => []
  | x :: xs => (x :: xs).take n :: chunksOf n (xs.drop (n - 1))
termination_by l => l.length
decreasing_by simp [List.length_drop]; omega

/-! ### Configuration and the result-file path (lines 16-40) -/

/-- The CLI configuration record (`args`).  `lr` and `windowSize` are kept as
their rendered strings: they only feed the file-name suffix. -/
structure Config where
  pretrainedLogName : String
  loadPath : String
  logName : String
  tuneMode : String
  numLayers : ℕ
  lr : String
  windowSize : ℕ
  adapterSize : ℕ
  epoch : ℕ

/-- Line 37: the suffix naming the result file, derived from config fields. -/
def suffix (c : Config) : String :=
  c.logName ++ "_from_" ++ c.pretrainedLogName ++ "_" ++ c.tuneMode ++ "_" ++
    toString c.numLayers ++ "_" ++ toString c.adapterSize ++ "_" ++ c.lr ++ "_" ++
    toString c.epoch

/-- The single output path `result/tune_<suffix>.txt`. -/
def resultPath (c : Config) : String :=
  "result/tune_" ++ suffix c ++ ".txt"

/-! ### Tuning-mode dispatch (lines 80-86)

`Model.train_adapter` / `Model.train_classifier` live in `model.py`, which is
not part of this repository snapshot; their parameter-trainability policies
are modelled from the spec (section 4.3). -/

/-- A model parameter: its name, whether it belongs to the designated adapter
subset, whether it belongs to the output head, and its `requires_grad` flag. -/
structure MParam where
  name : String
  isAdapter : Bool
  isHead : Bool
  requiresGrad : Bool
deriving DecidableEq, Repr

/-- Modelled from the spec: `Model.train_adapter` (not in src) enables exactly
the designated adapter subset. -/
def adapterPolicy (p : MParam) : MParam :=
  { p with requiresGrad := p.isAdapter }

/-- Modelled from the spec: `Model.train_classifier` (not in src) enables only
the output head. -/
def classifierPolicy (p : MParam) : MParam :=
  { p with requiresGrad := p.isHead }

/-- Lines 84-86: `for param in model.parameters(): param.requires_grad = True`. -/
def tuningPolicy (p : MParam) : MParam :=
  { p with requiresGrad := true }

/-- Lines 80-86: the `tune_mode` dispatch.  An unrecognized string falls
through every branch and leaves the parameters untouched. -/
def applyTuneMode (mode : String) (ps : List MParam) : List MParam :=
  if mode = "adapter" then ps.map adapterPolicy
  else if mode = "classifier" then ps.map classifierPolicy
  else if mode = "tuning" then ps.map tuningPolicy
  else ps

/-! ### Checkpoint loading (lines 92-100) -/

/-- Python `dict.pop(k)` on an association list: `none` models the `KeyError`
raised when the key is absent. -/
def popD (d : List (String × α)) (k : String) : Option (α × List (String × α)) :=
  match d.lookup k with
  | none => none
  | some v => some (v, d.eraseP (fun e => e.1 == k))

/-- `load_state_dict(sd, strict=False)`: every model parameter whose name is
in `sd` takes the checkpoint value, the rest keep their current value;
returns the new parameters, plus the missing keys (model names absent from
`sd`) and unexpected keys (`sd` names absent from the model). -/
def loadStateDict (modelP : List (String × α)) (sd : List (String × α)) :
    List (String × α) × List String × List String :=
  (modelP.map (fun p =>
      match sd.lookup p.1 with
      | some v => (p.1, v)
      | none => p),
   (modelP.filter (fun p => (sd.lookup p.1).isNone)).map Prod.fst,
   (sd.filter (fun e => (modelP.lookup e.1).isNone)).map Prod.fst)

/-- Rendering of the `IncompatibleKeys` value written at line 100. -/
def renderLoadResult (missing unexpected : List String) : String :=
  "IncompatibleKeys(missing_keys=" ++ toString missing ++
    ", unexpected_keys=" ++ toString unexpected ++ ")"

/-- Observable outcome of the checkpoint block: the resulting model
parameters, the state dict actually applied (the `net` of the checkpoint after the
two pops), the lines appended to the result file, and whether the checkpoint
file was read at all. -/
structure LoadOutcome (α : Type u) where
  model : List (String × α)
  applied : List (String × α)
  logWrites : List String
  readCheckpoint : Bool

/-- Lines 92-100.  When `pretrained_log_name` is not the sentinel `"random"`,
read the checkpoint, pop the two head-layer keys (a missing key is a fatal
`KeyError`, modelled as `none`), load the rest non-strictly and append the
load report to the result file; otherwise do nothing. -/
def checkpointBlock (pretrainedLogName loadPath : String)
    (net model0 : List (String × α)) : Option (LoadOutcome α) :=
  if pretrainedLogName ≠ "random" then
    match popD net "module.fc1.weight" with
    | none => none
    | some (_, n1) =>
      match popD n1 "module.fc1.bias" with
      | none => none
      | some (_, n2) =>
        let r := loadStateDict model0 n2
        some { model := r.1
               applied := n2
               logWrites :=
                 ["loading pretrained model " ++ loadPath,
                  "loading result: " ++ renderLoadResult r.2.1 r.2.2]
               readCheckpoint := true }
  else
    some { model := model0, applied := [], logWrites := [], readCheckpoint := false }

/-! ### The per-epoch training accumulators (lines 108-158) -/

/-- Line 110: `log_interval = 100`. -/
def logInterval : ℕ := 100

/-- What one training batch contributes to the accumulators: the scalar
`loss.item()`, the arg-maxed predictions `out.argmax(1).tolist()` and the
arg-maxed labels `y.argmax(1).tolist()`. -/
structure BatchRes where
  loss : ℚ
  preds : List ℕ
  trues : List ℕ
deriving DecidableEq, Repr

/-- The mutable per-epoch accumulators of the training loop. -/
structure EpochState where
  trainLoss : ℚ
  trainPred : List ℕ
  trainTrue : List ℕ
  lossAll : List ℚ
  f1All : List ℚ
deriving DecidableEq, Repr

/-- Line 112-114: fresh accumulators at the top of each epoch. -/
def initEpochState : EpochState :=
  { trainLoss := 0, trainPred := [], trainTrue := [], lossAll := [], f1All := [] }

/-- Lines 131-156, the accumulator updates of one batch at index `i`:
accumulate loss/preds/trues, and on a logging batch (`i % 100 == 0 and
i > 0`) record the interval loss and F1 and reset `train_loss` (line 154
resets only the loss; `train_pred` / `train_true` are left as they are). -/
def stepBatch (s : EpochState) (i : ℕ) (b : BatchRes) : EpochState :=
  let s1 : EpochState :=
    { s with trainLoss := s.trainLoss + b.loss
             trainPred := s.trainPred ++ b.preds
             trainTrue := s.trainTrue ++ b.trues }
  if i % logInterval = 0 ∧ 0 < i then
    { s1 with lossAll := s1.lossAll ++ [s1.trainLoss]
              f1All := s1.f1All ++ [f1B s1.trainTrue s1.trainPred]
              trainLoss := 0 }
  else s1

/-- `for batch_idx, data in enumerate(train_loader)` starting at index `i`. -/
def runEpochFrom (s : EpochState) (i : ℕ) : List BatchRes → EpochState
  | [] => s
  | b :: bs => runEpochFrom (stepBatch s i b) (i + 1) bs

/-- One full epoch of accumulator updates over the batch results. -/
def runEpoch (bs : List BatchRes) : EpochState :=
  runEpochFrom initEpochState 0 bs

/-- Line 158: `train_loss = sum(loss_all) / len(train_loader)`, the reported
epoch-level training loss. -/
def epochReportedLoss (bs : List BatchRes) : ℚ :=
  ((runEpoch bs).lossAll).sum / (bs.length : ℚ)

/-! ### The per-batch operation sequence (lines 103-129)

We record the training-relevant operations each batch performs as a trace.
`OneCycleLR(optimizer, max_lr, epochs, steps_per_epoch)` sizes its schedule
as `total_steps = epochs * steps_per_epoch` (torch semantics of the call at
lines 104-105). -/

/-- The operations of interest inside the training loop. -/
inductive TrainOp where
  | forward
  | bceLoss
  | zeroGrad
  | backward
  | clipGradNorm (threshold : ℚ)
  | optimizerStep
  | schedulerStep
deriving DecidableEq, Repr

/-- Lines 122-129 in source order: forward, BCE-with-logits loss,
`zero_grad`, `backward`, `clip_grad_norm_(.., 0.5)`, `optimizer.step()`,
`scheduler.step()`. -/
def perBatchOps : List TrainOp :=
  [TrainOp.forward, TrainOp.bceLoss, TrainOp.zeroGrad, TrainOp.backward,
   TrainOp.clipGradNorm (1 / 2), TrainOp.optimizerStep, TrainOp.schedulerStep]

/-- Line 109: `start_epoch = -1`. -/
def startEpoch : Int := -1

/-- Python `range(a, b)` over integers. -/
def pythonRange (a b : Int) : List Int :=
  (List.range (b - a).toNat).map (fun (i : ℕ) => a + (i : Int))

/-- Line 111: the epoch indices `range(start_epoch + 1, epochs)`. -/
def epochIndices (epochs : ℕ) : List Int :=
  pythonRange (startEpoch + 1) epochs

/-- The operation trace of the whole training run: for each epoch, for each
batch, the per-batch operations. -/
def trainTrace (epochs numBatches : ℕ) : List TrainOp :=
  (epochIndices epochs).flatMap (fun _e =>
    (List.range numBatches).flatMap (fun _b => perBatchOps))

/-- Lines 104-105: the one-cycle schedule is sized by
`epochs * steps_per_epoch` total scheduler steps. -/
def schedulerTotalSteps (epochs stepsPerEpoch : ℕ) : ℕ :=
  epochs * stepsPerEpoch

/-! ### The evaluation loop (lines 161-179) -/

/-- Lines 169-174: fold of the eval loop body over the batches, carrying the
batch index and the optional `(y_pred, y_true)` buffers (`none` models the
buffers being still undefined, a fatal `NameError` if used). -/
def evalAccum (i : ℕ) (acc : Option (List (List ℚ) × List (List ℚ))) :
    List (List (List ℚ) × List (List ℚ)) → Option (List (List ℚ) × List (List ℚ))
  | [] => acc
  | b :: bs =>
    evalAccum (i + 1)
      (if i = 0 then some (b.1, b.2)
       else
         match acc with
         | some (ps, ls) => some (ps ++ b.1, ls ++ b.2)
         | none => none) bs

/-- Lines 161-179: run the model over the test set in order (the test loader
has `shuffle=False`, batch size 64), concatenate the per-batch outputs and
labels, arg-max both and compute the binary metrics.  Returns the two
buffers and the `(precision, recall, f1)` report; `none` on an empty test
loader (where the Python would hit an undefined `y_pred`). -/
def evalEpoch (modelFn : X → List ℚ) (samples : List (X × List ℚ)) :
    Option ((List (List ℚ) × List (List ℚ)) × (ℚ × ℚ × ℚ)) :=
  let batches := (chunksOf 64 samples).map
    (fun b => (b.map (fun s => modelFn s.1), b.map (fun s => s.2)))
  match evalAccum 0 none batches with
  | none => none
  | some (yPred, yTrue) =>
    some ((yPred, yTrue), prfBinary (yTrue.map argmaxIdx) (yPred.map argmaxIdx))

/-! ### File effects (lines 39-40, 98-100, 141-146, 180-188) -/

/-- Python file-open modes used by the script. -/
inductive FMode where
  | write
  | append
deriving DecidableEq, Repr

/-- One file operation: the path opened, the mode, and the lines written. -/
structure FileOp where
  path : String
  mode : FMode
  lines : List String
deriving DecidableEq, Repr

/-- The log-interval batch indices of an epoch with `n` batches:
those `i < n` with `i % 100 == 0 and i > 0` (line 135). -/
def logIndices (n : ℕ) : List ℕ :=
  (List.range n).filter (fun i => i % logInterval == 0 && 0 < i)

/-- Every file operation the script performs, in order: the initial
truncating write of `str(args)` (lines 39-40), the checkpoint-load report
(lines 98-100, only when `pretrained_log_name != "random"`), and per epoch
the log-interval progress lines (lines 141-146) and the end-of-epoch metrics
block (lines 180-188).  All writes go to `resultPath c`; no other path is
ever opened for writing and no checkpoint is saved. -/
def runFileOps (c : Config) (numBatches : ℕ) : List FileOp :=
  [{ path := resultPath c, mode := FMode.write, lines := ["str(args)"] }] ++
  (if c.pretrainedLogName ≠ "random" then
    [{ path := resultPath c, mode := FMode.append,
       lines := ["loading pretrained model " ++ c.loadPath, "loading result"] }]
   else []) ++
  (epochIndices c.epoch).flatMap (fun e =>
    ((logIndices numBatches).map (fun i =>
      { path := resultPath c, mode := FMode.append,
        lines := ["epoch " ++ toString e ++ " batch " ++ toString i ++ " progress"] })) ++
    [{ path := resultPath c, mode := FMode.append,
       lines := ["number of epochs:" ++ toString e, "metrics block"] }])

/-! ### Seeding and shuffle determinism (lines 49-56, 71-72) -/

/-- The process-wide pseudo-random generator states the script seeds. -/
structure RngStates where
  torchRng : ℕ
  cudaRng : ℕ
  npRng : ℕ
  pyRng : ℕ
deriving DecidableEq, Repr

/-- Lines 51-54: `torch.manual_seed(123)`, `torch.cuda.manual_seed(123)`,
`np.random.seed(123)`, `random.seed(123)` — every generator is reset to the
fixed constant 123, whatever its previous state was. -/
def seedAll (_g : RngStates) : RngStates :=
  { torchRng := 123, cudaRng := 123, npRng := 123, pyRng := 123 }

/-- Lines 49-56 then 71-72: a run seeds all generators and builds the
training batches by drawing a shuffle permutation from the (just-seeded)
torch generator.  `torchShuffle` models the torch shuffle draw: a
deterministic function of the generator state and the dataset size, which is
what `DataLoader(shuffle=True)` is once `manual_seed` is fixed and
`cudnn.deterministic` is set (line 55). -/
def trainBatchOrder (torchShuffle : ℕ → ℕ → List ℕ) (g0 : RngStates)
    (data : List X) : List (List X) :=
  let g := seedAll g0
  let perm := torchShuffle g.torchRng data.length
  chunksOf 64 (perm.filterMap (fun i => data.get? i))

/-! ### Helper lemmas -/

theorem lookup_cons_pair (a : String) (v : α) (d : List (String × α)) (q : String) :
    ((a, v) :: d).lookup q = if q = a then some v else d.lookup q := by
  by_cases h : q = a
  · simp [List.lookup_cons, h]
  · have hb : (q == a) = false := beq_eq_false_iff_ne.mpr h
    simp [List.lookup_cons, hb, h]

theorem lookup_eq_none_of_not_mem_keys (d : List (String × α)) (k : String)
    (h : k ∉ d.map Prod.fst) : d.lookup k = none := by
  rw [List.lookup_eq_none_iff]
  intro p hp
  simp only [bne_iff_ne, ne_eq]
  intro hk
  exact h (hk ▸ List.mem_map_of_mem Prod.fst hp)

theorem lookup_eraseP_ne (d : List (String × α)) (k q : String) (h : q ≠ k) :
    (d.eraseP (fun e => e.1 == k)).lookup q = d.lookup q := by
  induction d with
  | nil => rfl
  | cons a d ih =>
    obtain ⟨a1, a2⟩ := a
    by_cases hak : a1 = k
    · rw [List.eraseP_cons_of_pos (by simp [hak])]
      rw [lookup_cons_pair, if_neg (fun hh => h (hh.trans hak))]
    · rw [List.eraseP_cons_of_neg (by simp [hak])]
      rw [lookup_cons_pair, lookup_cons_pair, ih]

theorem lookup_eraseP_self (d : List (String × α)) (k : String)
    (hnd : (d.map Prod.fst).Nodup) :
    (d.eraseP (fun e => e.1 == k)).lookup k = none := by
  induction d with
  | nil => rfl
  | cons a d ih =>
    obtain ⟨a1, a2⟩ := a
    simp only [List.map_cons, List.nodup_cons] at hnd
    by_cases hak : a1 = k
    · rw [List.eraseP_cons_of_pos (by simp [hak])]
      exact lookup_eq_none_of_not_mem_keys d k (hak ▸ hnd.1)
    · rw [List.eraseP_cons_of_neg (by simp [hak])]
      rw [lookup_cons_pair, if_neg (fun hh => hak hh.symm)]
      exact ih hnd.2

theorem keys_eraseP_nodup (d : List (String × α)) (p : String × α → Bool)
    (hnd : (d.map Prod.fst).Nodup) : ((d.eraseP p).map Prod.fst).Nodup :=
  ((List.eraseP_sublist d).map Prod.fst).nodup hnd

theorem flatMap_const_eq (l : List α) (c : List β) :
    (l.flatMap (fun _ => c)) = (List.replicate l.length c).flatten := by
  induction l with
  | nil => rfl
  | cons a l ih => simp [List.flatMap_cons, List.replicate_succ, ih]

theorem flatten_replicate_mul (m n : ℕ) (c : List α) :
    (List.replicate m ((List.replicate n c).flatten)).flatten =
      (List.replicate (m * n) c).flatten := by
  induction m with
  | zero => simp
  | succ m ih =>
    rw [List.replicate_succ, List.flatten_cons, ih, Nat.succ_mul, Nat.add_comm,
      List.replicate_add, List.flatten_append]

theorem flatten_chunksOf (n : ℕ) (hn : 0 < n) :
    (xs : List α) → (chunksOf n xs).flatten = xs
  | [] => by rw [chunksOf]; rfl
  | x :: xs => by
    rw [chunksOf, List.flatten_cons, flatten_chunksOf n hn (xs.drop (n - 1))]
    obtain ⟨m, rfl⟩ : ∃ m, n = m + 1 := ⟨n - 1, by omega⟩
    simp [List.take_succ_cons, List.take_append_drop]
termination_by xs => xs.length
decreasing_by simp [List.length_drop]; omega

theorem chunksOf_ne_nil (n : ℕ) (xs : List α) (h : xs ≠ []) : chunksOf n xs ≠ [] := by
  cases xs with
  | nil => exact absurd rfl h
  | cons x xs => rw [chunksOf]; exact List.cons_ne_nil _ _

theorem evalAccum_some (bs : List (List (List ℚ) × List (List ℚ))) :
    ∀ (i : ℕ) (ps ls : List (List ℚ)),
      evalAccum (i + 1) (some (ps, ls)) bs =
        some (ps ++ (bs.map Prod.fst).flatten, ls ++ (bs.map Prod.snd).flatten) := by
  induction bs with
  | nil => intro i ps ls; simp [evalAccum]
  | cons b bs ih =>
    intro i ps ls
    rw [evalAccum, if_neg (Nat.succ_ne_zero i)]
    show evalAccum (i + 1 + 1) (some (ps ++ b.1, ls ++ b.2)) bs = _
    rw [ih]
    simp [List.append_assoc]

theorem evalAccum_zero (b : List (List ℚ) × List (List ℚ))
    (bs : List (List (List ℚ) × List (List ℚ))) :
    evalAccum 0 none (b :: bs) =
      some (((b :: bs).map Prod.fst).flatten, ((b :: bs).map Prod.snd).flatten) := by
  rw [evalAccum, if_pos rfl]
  show evalAccum (0 + 1) (some (b.1, b.2)) bs = _
  rw [evalAccum_some]
  simp

theorem runEpochFrom_loss_conservation (bs : List BatchRes) :
    ∀ (i : ℕ) (s : EpochState),
      ((runEpochFrom s i bs).lossAll).sum + (runEpochFrom s i bs).trainLoss =
        s.lossAll.sum + s.trainLoss + (bs.map BatchRes.loss).sum := by
  induction bs with
  | nil => intro i s; simp [runEpochFrom]
  | cons b bs ih =>
    intro i s
    rw [runEpochFrom, ih]
    have hstep : (stepBatch s i b).lossAll.sum + (stepBatch s i b).trainLoss =
        s.lossAll.sum + s.trainLoss + b.loss := by
      by_cases hc : i % logInterval = 0 ∧ 0 < i
      · simp [stepBatch, hc]
        ring
      · simp [stepBatch, hc]
        ring
    rw [List.map_cons, List.sum_cons]
    linarith

/-! ### Claim theorems -/

/-- C3: for every epoch (0-indexed from epoch 0) and every training batch,
the step performs forward pass, BCE-with-logits loss, gradient zeroing,
backpropagation, gradient-norm clipping at 0.5, an optimizer step and a
scheduler step, in this exact order; the one-cycle schedule spans
`epochs * batches-per-epoch` total steps. -/
theorem C3_training_step_order (epochs numBatches : ℕ) :
    perBatchOps = [TrainOp.forward, TrainOp.bceLoss, TrainOp.zeroGrad,
      TrainOp.backward, TrainOp.clipGradNorm (1 / 2), TrainOp.optimizerStep,
      TrainOp.schedulerStep] ∧
    epochIndices epochs = (List.range epochs).map (fun (i : ℕ) => (i : Int)) ∧
    trainTrace epochs numBatches =
      (List.replicate (epochs * numBatches) perBatchOps).flatten ∧
    schedulerTotalSteps epochs numBatches = epochs * numBatches := by
  refine ⟨rfl, ?_, ?_, rfl⟩
  · simp [epochIndices, pythonRange, startEpoch]
  · have hin : (List.range numBatches).flatMap (fun _ => perBatchOps) =
        (List.replicate numBatches perBatchOps).flatten := by
      rw [flatMap_const_eq, List.length_range]
    have hlen : (epochIndices epochs).length = epochs := by
      simp only [epochIndices, pythonRange, List.length_map, List.length_range,
        startEpoch]
      omega
    calc trainTrace epochs numBatches
        = (epochIndices epochs).flatMap
            (fun _ => (List.replicate numBatches perBatchOps).flatten) := by
          simp only [trainTrace, hin]
      _ = (List.replicate (epochIndices epochs).length
            ((List.replicate numBatches perBatchOps).flatten)).flatten :=
          flatMap_const_eq _ _
      _ = (List.replicate (epochs * numBatches) perBatchOps).flatten := by
          rw [hlen, flatten_replicate_mul]

/-- C5: an unrecognized `tune_mode` string alters no trainability flag
(the dispatch is a silent no-op), while each of the three recognized values
selects exactly its policy: adapter subset, classifier head only, or all
parameters. -/
theorem C5_tune_mode (mode : String) (ps : List MParam) :
    (mode ∉ (["adapter", "classifier", "tuning"] : List String) →
      applyTuneMode mode ps = ps) ∧
    applyTuneMode "adapter" ps = ps.map adapterPolicy ∧
    applyTuneMode "classifier" ps = ps.map classifierPolicy ∧
    applyTuneMode "tuning" ps = ps.map tuningPolicy := by
  refine ⟨?_, by simp [applyTuneMode], by simp [applyTuneMode], by simp [applyTuneMode]⟩
  intro h
  simp only [List.mem_cons, List.mem_singleton, not_or] at h
  obtain ⟨h1, h2, h3⟩ := h
  simp [applyTuneMode, h1, h2, h3]

/-- C5 witness: the unrecognized mode `"banana"` leaves a concrete parameter
list untouched. -/
theorem C5_tune_mode_witness :
    applyTuneMode "banana"
      [{ name := "module.fc1.weight", isAdapter := false, isHead := true,
         requiresGrad := false }] =
      [{ name := "module.fc1.weight", isAdapter := false, isHead := true,
         requiresGrad := false }] :=
  (C5_tune_mode "banana" _).1 (by decide)

/-- C8: two runs with different ambient generator states produce identical
training batch orderings, because lines 51-54 reset every generator to the
fixed seed 123 before the loaders are built: the shuffled order is a
function of the (re-seeded) generator and the data only. -/
theorem C8_shuffle_determinism (torchShuffle : ℕ → ℕ → List ℕ)
    (g0 g1 : RngStates) (data : List X) :
    trainBatchOrder torchShuffle g0 data = trainBatchOrder torchShuffle g1 data := rfl

/-- C9: with the sentinel `pretrained_log_name = "random"` the whole loading
block is skipped: no checkpoint read, parameters untouched, nothing written
to the log. -/
theorem C9_random_sentinel_skip (loadPath : String) (net model0 : List (String × α)) :
    checkpointBlock "random" loadPath net model0 =
      some { model := model0, applied := [], logWrites := [],
             readCheckpoint := false } := by
  rw [checkpointBlock, if_neg (by simp)]

/-- C10: if either head-layer key is absent from the checkpoint mapping, the
`pop` raises (result `none`, the fatal `KeyError`) and no state dict is ever
applied: both keys present is a precondition for any load. -/
theorem C10_missing_head_key (pname loadPath : String)
    (net model0 : List (String × α)) (hp : pname ≠ "random")
    (h : net.lookup "module.fc1.weight" = none ∨
         net.lookup "module.fc1.bias" = none) :
    checkpointBlock pname loadPath net model0 = none := by
  rw [checkpointBlock, if_pos hp]
  rcases h with hw | hb
  · simp [popD, hw]
  · cases hcw : net.lookup "module.fc1.weight" with
    | none => simp [popD, hcw]
    | some vw =>
      have hb2 : ((net.eraseP (fun e => e.1 == "module.fc1.weight")).lookup
          "module.fc1.bias") = none := by
        rw [lookup_eraseP_ne _ _ _ (by decide)]
        exact hb
      simp [popD, hcw, hb2]

/-- C10 witness: a checkpoint holding only `module.fc1.weight` (the bias key
missing) makes the loader fail fatally. -/
theorem C10_missing_head_key_witness :
    checkpointBlock "BGL_2k" "checkpoints/a.pt"
      [("module.fc1.weight", (1 : ℕ))] [] = none :=
  C10_missing_head_key "BGL_2k" "checkpoints/a.pt" _ _ (by decide)
    (Or.inr (by decide))

/-- C1 counterexample: run 101 batches (indices 0..100; index 100 is a
logging interval, witnessed by `lossAll` having gained its entry).  After
the logging block the running predictions and running true labels still
hold all 101 accumulated entries instead of having been reset to their
empty initial value, refuting the claim that all per-interval accumulators
are reset; line 154 of the source resets only `train_loss`. -/
theorem C1_counterexample :
    (runEpoch (List.replicate 101 ⟨1, [1], [0]⟩)).lossAll.length = 1 ∧
    (runEpoch (List.replicate 101 ⟨1, [1], [0]⟩)).trainPred.length = 101 ∧
    (runEpoch (List.replicate 101 ⟨1, [1], [0]⟩)).trainTrue.length = 101 ∧
    (runEpoch (List.replicate 101 ⟨1, [1], [0]⟩)).trainPred ≠ [] := by
  set_option maxRecDepth 10000 in decide

/-- C1 amended: at every logging interval (batch index divisible by 100 and
positive), after the interval loss and F1 are recorded, only the running
loss is reset to zero; the running predictions and running true labels are
not reset and keep their accumulated contents (extended by the current
batch). -/
theorem C1_amended (s : EpochState) (i : ℕ) (b : BatchRes)
    (h1 : i % logInterval = 0) (h2 : 0 < i) :
    (stepBatch s i b).trainLoss = 0 ∧
    (stepBatch s i b).lossAll = s.lossAll ++ [s.trainLoss + b.loss] ∧
    (stepBatch s i b).trainPred = s.trainPred ++ b.preds ∧
    (stepBatch s i b).trainTrue = s.trainTrue ++ b.trues := by
  simp [stepBatch, h1, h2]

/-- C1 amended, witness at batch index 100 from the initial state. -/
theorem C1_amended_witness :
    (stepBatch initEpochState 100 ⟨1, [1], [0]⟩).trainLoss = 0 ∧
    (stepBatch initEpochState 100 ⟨1, [1], [0]⟩).lossAll =
      initEpochState.lossAll ++ [initEpochState.trainLoss + (⟨1, [1], [0]⟩ : BatchRes).loss] ∧
    (stepBatch initEpochState 100 ⟨1, [1], [0]⟩).trainPred =
      initEpochState.trainPred ++ (⟨1, [1], [0]⟩ : BatchRes).preds ∧
    (stepBatch initEpochState 100 ⟨1, [1], [0]⟩).trainTrue =
      initEpochState.trainTrue ++ (⟨1, [1], [0]⟩ : BatchRes).trues :=
  C1_amended initEpochState 100 ⟨1, [1], [0]⟩ (by decide) (by decide)

/-- C6: the reported epoch-level training loss is `sum(loss_all)` divided by
the number of batches, whatever the data; moreover the recorded interval
losses together with the still-unlogged tail loss account exactly for the
total loss of the epoch (so `loss_all` really holds the per-interval
accumulations). -/
theorem C6_epoch_loss (bs : List BatchRes) (h : 0 < bs.length) :
    epochReportedLoss bs = ((runEpoch bs).lossAll).sum / (bs.length : ℚ) ∧
    ((runEpoch bs).lossAll).sum + (runEpoch bs).trainLoss =
      (bs.map BatchRes.loss).sum := by
  refine ⟨rfl, ?_⟩
  have hc := runEpochFrom_loss_conservation bs 0 initEpochState
  simpa [runEpoch, initEpochState] using hc

/-- C6 witness on a two-batch epoch. -/
theorem C6_epoch_loss_witness :
    epochReportedLoss [⟨1, [1], [1]⟩, ⟨2, [0], [1]⟩] =
      ((runEpoch [⟨1, [1], [1]⟩, ⟨2, [0], [1]⟩]).lossAll).sum /
        (([⟨1, [1], [1]⟩, ⟨2, [0], [1]⟩] : List BatchRes).length : ℚ) ∧
    ((runEpoch [⟨1, [1], [1]⟩, ⟨2, [0], [1]⟩]).lossAll).sum +
      (runEpoch [⟨1, [1], [1]⟩, ⟨2, [0], [1]⟩]).trainLoss =
      (([⟨1, [1], [1]⟩, ⟨2, [0], [1]⟩] : List BatchRes).map BatchRes.loss).sum :=
  C6_epoch_loss [⟨1, [1], [1]⟩, ⟨2, [0], [1]⟩] (by decide)

/-- C7 counterexample: the very first file operation of a run (line 39)
opens the result file with mode `w`, truncating any existing content, so
the output file is not "only ever appended to". -/
theorem C7_counterexample :
    ¬ (∀ op ∈ runFileOps
        ⟨"BGL_2k", "checkpoints/t.pt", "BGL_2k", "adapter", 1, "1e-05", 20, 64, 1⟩ 5,
        op.mode = FMode.append) := by
  set_option maxRecDepth 4000 in decide

/-- C7 amended: every file operation of a run targets the single
config-derived path; the first operation is the startup truncating write of
`str(args)`, and every operation after it is an append; no checkpoint (or
any other artifact) is ever written. -/
theorem C7_amended (c : Config) (numBatches : ℕ) :
    (∀ op ∈ runFileOps c numBatches, op.path = resultPath c) ∧
    (runFileOps c numBatches).head?.map FileOp.mode = some FMode.write ∧
    (∀ op ∈ (runFileOps c numBatches).tail, op.mode = FMode.append) := by
  have htail : (runFileOps c numBatches).tail =
      (if c.pretrainedLogName ≠ "random" then
        [{ path := resultPath c, mode := FMode.append,
           lines := ["loading pretrained model " ++ c.loadPath, "loading result"] }]
       else []) ++
      (epochIndices c.epoch).flatMap (fun e =>
        ((logIndices numBatches).map (fun i =>
          { path := resultPath c, mode := FMode.append,
            lines := ["epoch " ++ toString e ++ " batch " ++ toString i ++ " progress"] })) ++
        [{ path := resultPath c, mode := FMode.append,
           lines := ["number of epochs:" ++ toString e, "metrics block"] }]) := rfl
  have hspec : ∀ op ∈ (runFileOps c numBatches).tail,
      op.path = resultPath c ∧ op.mode = FMode.append := by
    intro op hop
    rw [htail] at hop
    rcases List.mem_append.mp hop with hop1 | hop2
    · by_cases hpre : c.pretrainedLogName ≠ "random"
      · rw [if_pos hpre] at hop1
        rcases List.mem_singleton.mp hop1 with rfl
        exact ⟨rfl, rfl⟩
      · rw [if_neg hpre] at hop1
        exact absurd hop1 (List.not_mem_nil op)
    · rcases List.mem_flatMap.mp hop2 with ⟨e, _, hope⟩
      rcases List.mem_append.mp hope with hopm | hopl
      · rcases List.mem_map.mp hopm with ⟨i, _, rfl⟩
        exact ⟨rfl, rfl⟩
      · rcases List.mem_singleton.mp hopl with rfl
        exact ⟨rfl, rfl⟩
  have hcons : runFileOps c numBatches =
      { path := resultPath c, mode := FMode.write, lines := ["str(args)"] } ::
        (runFileOps c numBatches).tail := rfl
  refine ⟨?_, rfl, fun op hop => (hspec op hop).2⟩
  intro op hop
  rw [hcons] at hop
  rcases List.mem_cons.mp hop with rfl | hop2
  · rfl
  · exact (hspec op hop2).1

/-- C7 amended, witness: concrete run; the head operation is the truncating
write, and the end-of-epoch metrics append targets the same result path. -/
theorem C7_amended_witness :
    (runFileOps
        ⟨"BGL_2k", "checkpoints/t.pt", "BGL_2k", "adapter", 1, "1e-05", 20, 64, 1⟩
        5).head?.map FileOp.mode = some FMode.write ∧
    ({ path := resultPath
          ⟨"BGL_2k", "checkpoints/t.pt", "BGL_2k", "adapter", 1, "1e-05", 20, 64, 1⟩,
       mode := FMode.write, lines := ["str(args)"] } : FileOp).path =
      resultPath
        ⟨"BGL_2k", "checkpoints/t.pt", "BGL_2k", "adapter", 1, "1e-05", 20, 64, 1⟩ :=
  ⟨(C7_amended
      ⟨"BGL_2k", "checkpoints/t.pt", "BGL_2k", "adapter", 1, "1e-05", 20, 64, 1⟩ 5).2.1,
   (C7_amended
      ⟨"BGL_2k", "checkpoints/t.pt", "BGL_2k", "adapter", 1, "1e-05", 20, 64, 1⟩ 5).1
     _ (by rw [(rfl :
        runFileOps
          ⟨"BGL_2k", "checkpoints/t.pt", "BGL_2k", "adapter", 1, "1e-05", 20, 64, 1⟩ 5 =
          { path := resultPath
              ⟨"BGL_2k", "checkpoints/t.pt", "BGL_2k", "adapter", 1, "1e-05", 20, 64, 1⟩,
            mode := FMode.write, lines := ["str(args)"] } ::
            (runFileOps
              ⟨"BGL_2k", "checkpoints/t.pt", "BGL_2k", "adapter", 1, "1e-05", 20, 64, 1⟩
              5).tail)]; exact List.mem_cons_self _ _)⟩

/-- C2: with a checkpoint holding both head-layer keys, loading removes
exactly `module.fc1.weight` and `module.fc1.bias` (lookups of the two keys
in the applied dict fail, every other key is untouched), applies the
remaining entries to the model non-strictly (a model parameter named in the
applied dict takes the checkpoint value, one absent from it keeps its
initialized value), and appends the load result (missing/unexpected keys)
to the log. -/
theorem C2_checkpoint_load (pname loadPath : String)
    (net model0 : List (String × α)) (vw vb : α)
    (hp : pname ≠ "random")
    (hnd : (net.map Prod.fst).Nodup)
    (hw : net.lookup "module.fc1.weight" = some vw)
    (hb : net.lookup "module.fc1.bias" = some vb) :
    ∃ out : LoadOutcome α,
      checkpointBlock pname loadPath net model0 = some out ∧
      out.readCheckpoint = true ∧
      out.applied =
        (net.eraseP (fun e => e.1 == "module.fc1.weight")).eraseP
          (fun e => e.1 == "module.fc1.bias") ∧
      out.applied.lookup "module.fc1.weight" = none ∧
      out.applied.lookup "module.fc1.bias" = none ∧
      (∀ k, k ≠ "module.fc1.weight" → k ≠ "module.fc1.bias" →
        out.applied.lookup k = net.lookup k) ∧
      out.model = (loadStateDict model0 out.applied).1 ∧
      (∀ p ∈ model0, out.applied.lookup p.1 = none → p ∈ out.model) ∧
      (∀ p ∈ model0, ∀ v, out.applied.lookup p.1 = some v → (p.1, v) ∈ out.model) ∧
      out.logWrites =
        ["loading pretrained model " ++ loadPath,
         "loading result: " ++
           renderLoadResult (loadStateDict model0 out.applied).2.1
             (loadStateDict model0 out.applied).2.2] := by
  have hb1 : (net.eraseP (fun e => e.1 == "module.fc1.weight")).lookup
      "module.fc1.bias" = some vb := by
    rw [lookup_eraseP_ne _ _ _ (by decide)]
    exact hb
  have hblock : checkpointBlock pname loadPath net model0 =
      some { model := (loadStateDict model0
               ((net.eraseP (fun e => e.1 == "module.fc1.weight")).eraseP
                 (fun e => e.1 == "module.fc1.bias"))).1
             applied := (net.eraseP (fun e => e.1 == "module.fc1.weight")).eraseP
               (fun e => e.1 == "module.fc1.bias")
             logWrites :=
               ["loading pretrained model " ++ loadPath,
                "loading result: " ++
                  renderLoadResult
                    (loadStateDict model0
                      ((net.eraseP (fun e => e.1 == "module.fc1.weight")).eraseP
                        (fun e => e.1 == "module.fc1.bias"))).2.1
                    (loadStateDict model0
                      ((net.eraseP (fun e => e.1 == "module.fc1.weight")).eraseP
                        (fun e => e.1 == "module.fc1.bias"))).2.2]
             readCheckpoint := true } := by
    rw [checkpointBlock, if_pos hp]
    simp [popD, hw, hb1]
  refine ⟨_, hblock, rfl, rfl, ?_, ?_, ?_, rfl, ?_, ?_, rfl⟩
  · rw [lookup_eraseP_ne _ _ _ (by decide)]
    exact lookup_eraseP_self net "module.fc1.weight" hnd
  · exact lookup_eraseP_self _ "module.fc1.bias"
      (keys_eraseP_nodup net _ hnd)
  · intro k hkw hkb
    rw [lookup_eraseP_ne _ _ _ hkb, lookup_eraseP_ne _ _ _ hkw]
  · intro p hpmem hlk
    have hmem := List.mem_map_of_mem (fun p : String × α =>
      match ((net.eraseP (fun e => e.1 == "module.fc1.weight")).eraseP
          (fun e => e.1 == "module.fc1.bias")).lookup p.1 with
        | some v => (p.1, v)
        | none => p) hpmem
    simp only [hlk] at hmem
    exact hmem
  · intro p hpmem v hlk
    have hmem := List.mem_map_of_mem (fun p : String × α =>
      match ((net.eraseP (fun e => e.1 == "module.fc1.weight")).eraseP
          (fun e => e.1 == "module.fc1.bias")).lookup p.1 with
        | some v => (p.1, v)
        | none => p) hpmem
    simp only [hlk] at hmem
    exact hmem

/-- C2 witness: a concrete checkpoint with both head keys and one adapter
key, against a model with one matching and one extra parameter. -/
theorem C2_checkpoint_load_witness :
    ∃ out : LoadOutcome ℕ,
      checkpointBlock "BGL_2k" "checkpoints/t.pt"
        [("module.fc1.weight", 1), ("module.fc1.bias", 2), ("module.encoder.adapter", 3)]
        [("module.encoder.adapter", 0), ("module.fc2.weight", 9)] = some out ∧
      out.readCheckpoint = true ∧
      out.applied =
        (([("module.fc1.weight", 1), ("module.fc1.bias", 2),
           ("module.encoder.adapter", 3)] : List (String × ℕ)).eraseP
          (fun e => e.1 == "module.fc1.weight")).eraseP
          (fun e => e.1 == "module.fc1.bias") ∧
      out.applied.lookup "module.fc1.weight" = none ∧
      out.applied.lookup "module.fc1.bias" = none ∧
      (∀ k, k ≠ "module.fc1.weight" → k ≠ "module.fc1.bias" →
        out.applied.lookup k =
          ([("module.fc1.weight", 1), ("module.fc1.bias", 2),
            ("module.encoder.adapter", 3)] : List (String × ℕ)).lookup k) ∧
      out.model = (loadStateDict
        [("module.encoder.adapter", 0), ("module.fc2.weight", 9)] out.applied).1 ∧
      (∀ p ∈ ([("module.encoder.adapter", 0), ("module.fc2.weight", 9)] :
          List (String × ℕ)),
        out.applied.lookup p.1 = none → p ∈ out.model) ∧
      (∀ p ∈ ([("module.encoder.adapter", 0), ("module.fc2.weight", 9)] :
          List (String × ℕ)),
        ∀ v, out.applied.lookup p.1 = some v → (p.1, v) ∈ out.model) ∧
      out.logWrites =
        ["loading pretrained model " ++ "checkpoints/t.pt",
         "loading result: " ++
           renderLoadResult
             (loadStateDict [("module.encoder.adapter", 0), ("module.fc2.weight", 9)]
               out.applied).2.1
             (loadStateDict [("module.encoder.adapter", 0), ("module.fc2.weight", 9)]
               out.applied).2.2] :=
  C2_checkpoint_load "BGL_2k" "checkpoints/t.pt" _ _ 1 2 (by decide) (by decide)
    (by decide) (by decide)

/-- C4: on a nonempty test set of N samples processed in order in batches of
64, the concatenated prediction and label buffers each have exactly N rows
in the original iteration order (model outputs and labels of the samples in
dataset order), and the metrics are the binary precision/recall/F1 of the
arg-maxed buffers. -/
theorem C4_eval_buffers (modelFn : X → List ℚ) (samples : List (X × List ℚ))
    (h : samples ≠ []) :
    ∃ yPred yTrue report,
      evalEpoch modelFn samples = some ((yPred, yTrue), report) ∧
      yPred = samples.map (fun s => modelFn s.1) ∧
      yTrue = samples.map (fun s => s.2) ∧
      yPred.length = samples.length ∧
      yTrue.length = samples.length ∧
      report = prfBinary (yTrue.map argmaxIdx) (yPred.map argmaxIdx) := by
  obtain ⟨c, cs, hch⟩ : ∃ c cs, chunksOf 64 samples = c :: cs := by
    cases hc : chunksOf 64 samples with
    | nil => exact absurd hc (chunksOf_ne_nil 64 samples h)
    | cons c cs => exact ⟨c, cs, rfl⟩
  have hflat : (c :: cs).flatten = samples := by
    rw [← hch]
    exact flatten_chunksOf 64 (by norm_num) samples
  have h1 : ((List.map (fun b : List (X × List ℚ) =>
        (b.map (fun s => modelFn s.1), b.map (fun s => s.2))) (c :: cs)).map
          Prod.fst).flatten = samples.map (fun s => modelFn s.1) := by
    rw [List.map_map]
    have hcomp : (Prod.fst ∘ fun b : List (X × List ℚ) =>
        (b.map (fun s => modelFn s.1), b.map (fun s => s.2))) =
        fun b : List (X × List ℚ) => b.map (fun s => modelFn s.1) := rfl
    rw [hcomp, ← List.map_flatten, hflat]
  have h2 : ((List.map (fun b : List (X × List ℚ) =>
        (b.map (fun s => modelFn s.1), b.map (fun s => s.2))) (c :: cs)).map
          Prod.snd).flatten = samples.map (fun s => s.2) := by
    rw [List.map_map]
    have hcomp : (Prod.snd ∘ fun b : List (X × List ℚ) =>
        (b.map (fun s => modelFn s.1), b.map (fun s => s.2))) =
        fun b : List (X × List ℚ) => b.map (fun s => s.2) := rfl
    rw [hcomp, ← List.map_flatten, hflat]
  have hacc : evalAccum 0 none ((chunksOf 64 samples).map
      (fun b => (b.map (fun s => modelFn s.1), b.map (fun s => s.2)))) =
      some (samples.map (fun s => modelFn s.1), samples.map (fun s => s.2)) := by
    rw [hch, List.map_cons, evalAccum_zero,
      (List.map_cons (fun b : List (X × List ℚ) =>
        (b.map (fun s => modelFn s.1), b.map (fun s => s.2))) c cs).symm]
    rw [h1, h2]
  refine ⟨samples.map (fun s => modelFn s.1), samples.map (fun s => s.2),
    prfBinary ((samples.map (fun s => s.2)).map argmaxIdx)
      ((samples.map (fun s => modelFn s.1)).map argmaxIdx),
    ?_, rfl, rfl, by simp, by simp, rfl⟩
  simp only [evalEpoch]
  rw [hacc]

/-- C4 witness on a two-sample test set. -/
theorem C4_eval_buffers_witness :
    ∃ yPred yTrue report,
      evalEpoch (fun x : ℕ => [(x : ℚ), 0]) [(0, [1, 0]), (1, [0, 1])] =
        some ((yPred, yTrue), report) ∧
      yPred = ([(0, [1, 0]), (1, [0, 1])] : List (ℕ × List ℚ)).map
        (fun s => (fun x : ℕ => [(x : ℚ), 0]) s.1) ∧
      yTrue = ([(0, [1, 0]), (1, [0, 1])] : List (ℕ × List ℚ)).map (fun s => s.2) ∧
      yPred.length = ([(0, [1, 0]), (1, [0, 1])] : List (ℕ × List ℚ)).length ∧
      yTrue.length = ([(0, [1, 0]), (1, [0, 1])] : List (ℕ × List ℚ)).length ∧
      report = prfBinary (yTrue.map argmaxIdx) (yPred.map argmaxIdx) :=
  C4_eval_buffers (fun x : ℕ => [(x : ℚ), 0]) [(0, [1, 0]), (1, [0, 1])]
    (by decide)
